import Mathlib

/-!
Formal model of the ApexView quotes backend: the Express routes `/quotes`,
`/fx` and `/search` (server entry file) and the `/telemetry` router
(routes/telemetry.js).

Each HTTP handler is modelled as a pure function from the request data, the
in-memory TTL cache, the clock value (`Date.now()`), and the upstream
provider (a function-valued parameter standing for the axios call) to the
JSON response, the updated cache, and the number of provider calls issued.
JavaScript numbers occurring in parsed JSON payloads are modelled as
rationals (JSON has no NaN literal, so parsed payload numbers are ordinary
numbers).  Platform builtins whose exact semantics the server does not
depend on (`Date.parse`, `parseFloat` composed with string coercion) are
abstract function parameters of the model.
-/

/-! ## JavaScript string primitives used by the server -/

/-- Characters matched by JavaScript `\s` and trimmed by `String.prototype.trim`. -/
def jsSpaceChar (c : Char) : Bool :=
  c == ' ' || c == '\t' || c == '\n' || c == '\r' ||
  c.toNat == 11 || c.toNat == 12 ||
  c.toNat == 0xa0 || c.toNat == 0x1680 ||
  (decide (0x2000 ≤ c.toNat) && decide (c.toNat ≤ 0x200a)) ||
  c.toNat == 0x2028 || c.toNat == 0x2029 || c.toNat == 0x202f ||
  c.toNat == 0x205f || c.toNat == 0x3000 || c.toNat == 0xfeff

/-- Model of `String.prototype.toUpperCase` (ASCII letters). -/
def jsUpper (s : String) : String :=
  ⟨s.data.map Char.toUpper⟩

/-- Model of `String.prototype.trim`. -/
def jsTrim (s : String) : String :=
  ⟨((s.data.dropWhile jsSpaceChar).reverse.dropWhile jsSpaceChar).reverse⟩

def splitCommaAux : List Char → List Char → List (List Char)
  | [], acc => [acc.reverse]
  | c :: rest, acc =>
    if c == ',' then acc.reverse :: splitCommaAux rest []
    else splitCommaAux rest (c :: acc)

/-- Model of `String.prototype.split(',')`. -/
def jsSplitComma (s : String) : List String :=
  (splitCommaAux s.data []).map String.mk

def dedupAux : List String → List String → List String
  | [], _ => []
  | x :: xs, seen =>
    if seen.contains x then dedupAux xs seen
    else x :: dedupAux xs (x :: seen)

/-- Model of `Array.from(new Set(xs))` for strings: keep first occurrences. -/
def dedup (l : List String) : List String :=
  dedupAux l []

/-- Model of `String.prototype.endsWith`. -/
def jsEndsWith (s suffi : String) : Bool :=
  suffi.data.isSuffixOf s.data

/-- Model of `String.prototype.slice(0, -n)` for `n` at most the length. -/
def jsDropRight (s : String) (n : Nat) : String :=
  ⟨s.data.take (s.data.length - n)⟩

/-! ## The shared TTL cache (`const cache = new Map()`) -/

structure CacheEntry (α : Type) where
  timestamp : Nat
  value : α
deriving DecidableEq

/-- The cache is read only through `cache.get`, modelled as function application. -/
def Cache (α : Type) : Type :=
  String → Option (CacheEntry α)

def cacheSet {α : Type} (c : Cache α) (k : String) (e : CacheEntry α) : Cache α :=
  fun k2 => if k2 = k then some e else c k2

/-- `CACHE_TTL_MS = 60 * 60 * 1000` (60 minutes). -/
def CACHE_TTL_MS : Nat := 60 * 60 * 1000

def applyWrite {α : Type} (c : Cache α) : Option (String × CacheEntry α) → Cache α
  | none => c
  | some (k, e) => cacheSet c k e

def applyWrites {α : Type} (c : Cache α) (ws : List (Option (String × CacheEntry α))) : Cache α :=
  ws.foldl applyWrite c

/-! ## Symbol mapping and validation (`mapToFinnhubSymbol`, `isValidSymbol`) -/

/-- The fixed `cryptoMap` object literal from `mapToFinnhubSymbol`. -/
def cryptoMap : List (String × String) :=
  [("BTC", "BINANCE:BTCUSDT"), ("BTC-USD", "BINANCE:BTCUSDT"),
   ("ETH", "BINANCE:ETHUSDT"), ("ETH-USD", "BINANCE:ETHUSDT"),
   ("BNB", "BINANCE:BNBUSDT"), ("BNB-USD", "BINANCE:BNBUSDT"),
   ("SOL", "BINANCE:SOLUSDT"), ("SOL-USD", "BINANCE:SOLUSDT"),
   ("XRP", "BINANCE:XRPUSDT"), ("XRP-USD", "BINANCE:XRPUSDT"),
   ("ADA", "BINANCE:ADAUSDT"), ("ADA-USD", "BINANCE:ADAUSDT"),
   ("AVAX", "BINANCE:AVAXUSDT"), ("AVAX-USD", "BINANCE:AVAXUSDT"),
   ("DOGE", "BINANCE:DOGEUSDT"), ("DOGE-USD", "BINANCE:DOGEUSDT"),
   ("MATIC", "BINANCE:MATICUSDT"), ("MATIC-USD", "BINANCE:MATICUSDT"),
   ("DOT", "BINANCE:DOTUSDT"), ("DOT-USD", "BINANCE:DOTUSDT"),
   ("LTC", "BINANCE:LTCUSDT"), ("LTC-USD", "BINANCE:LTCUSDT"),
   ("LINK", "BINANCE:LINKUSDT"), ("LINK-USD", "BINANCE:LINKUSDT"),
   ("BCH", "BINANCE:BCHUSDT"), ("BCH-USD", "BINANCE:BCHUSDT"),
   ("SHIB", "BINANCE:SHIBUSDT"), ("SHIB-USD", "BINANCE:SHIBUSDT"),
   ("UNI", "BINANCE:UNIUSDT"), ("UNI-USD", "BINANCE:UNIUSDT"),
   ("TON", "BINANCE:TONUSDT"), ("TON-USD", "BINANCE:TONUSDT"),
   ("INJ", "BINANCE:INJUSDT"), ("INJ-USD", "BINANCE:INJUSDT"),
   ("OP", "BINANCE:OPUSDT"), ("OP-USD", "BINANCE:OPUSDT"),
   ("ARB", "BINANCE:ARBUSDT"), ("ARB-USD", "BINANCE:ARBUSDT")]

/-- Character class `[A-Z0-9]` of the generic `-USD` base pattern. -/
def isBaseChar (c : Char) : Bool :=
  (decide ('A' ≤ c) && decide (c ≤ 'Z')) || c.isDigit

/-- Direct translation of `mapToFinnhubSymbol`; the `!raw` guard returns `null`
(`none`) for the empty string. -/
def mapToFinnhubSymbol (raw : String) : Option String :=
  if raw = "" then none
  else
    let sym := jsUpper (jsTrim raw)
    match List.lookup sym cryptoMap with
    | some m => some m
    | none =>
      if jsEndsWith sym "-USD" then
        let base := jsDropRight sym 4
        if 2 ≤ base.length ∧ base.length ≤ 10 ∧ base.data.all isBaseChar then
          some ("BINANCE:" ++ base ++ "USDT")
        else some sym
      else some sym

/-- The mapped symbol as it is interpolated into the cache key and the URL
(JavaScript renders `null` as the string "null" in a template literal; this
only arises for the empty raw symbol, which validation excludes). -/
def mapAppliedSymbol (raw : String) : String :=
  (mapToFinnhubSymbol raw).getD "null"

/-- Character class `[A-Z0-9.\-]` of `isValidSymbol`. -/
def isSymbolChar (c : Char) : Bool :=
  (decide ('A' ≤ c) && decide (c ≤ 'Z')) || c.isDigit || c == '.' || c == '-'

/-- Direct translation of `isValidSymbol` (`/^[A-Z0-9.\-]{1,20}$/`). -/
def isValidSymbol (s : String) : Bool :=
  decide (1 ≤ s.length) && decide (s.length ≤ 20) && s.data.all isSymbolChar

/-! ## The `/quotes` handler -/

/-- A JSON field value as far as the server inspects it (`typeof x === 'number'`). -/
inductive JField where
  | num (q : Rat)
  | str (s : String)
  | jbool (b : Bool)
  | jnull
  | undefined
deriving DecidableEq

/-- The Finnhub quote payload `response.data`, fields `pc c h l o`. -/
structure FinnhubQuote where
  pc : JField
  c : JField
  h : JField
  l : JField
  o : JField
deriving DecidableEq

/-- Outcome of one axios call: a thrown error, or a response with a status and
a body (`none` stands for a falsy `response.data`, replaced by `{}`). -/
inductive FetchResult where
  | throw
  | resp (status : Nat) (data : Option FinnhubQuote)

/-- The normalized Quote value (`open` is a Lean keyword, renamed `openP`). -/
structure Quote where
  symbol : String
  previousClose : Option Rat
  current : Option Rat
  high : Option Rat
  low : Option Rat
  openP : Option Rat
  provider : String
deriving DecidableEq

/-- Numeric coercion `typeof q.x === 'number' ? q.x : null`. -/
def jnumToOpt : JField → Option Rat
  | .num q => some q
  | _ => none

def buildQuote (raw : String) (q : FinnhubQuote) : Quote :=
  ⟨raw, jnumToOpt q.pc, jnumToOpt q.c, jnumToOpt q.h, jnumToOpt q.l, jnumToOpt q.o, "finnhub"⟩

/-- The per-symbol catch fallback: all numeric fields null. -/
def fallbackQuote (raw : String) : Quote :=
  ⟨raw, none, none, none, none, none, "finnhub"⟩

def quoteCacheKey (finnhub : String) : String :=
  "quote:" ++ finnhub

def emptyFinnhubQuote : FinnhubQuote :=
  ⟨.undefined, .undefined, .undefined, .undefined, .undefined⟩

/-- The payload a fetch outcome yields (`response.data || {}`). -/
def fetchedData : FetchResult → FinnhubQuote
  | .throw => emptyFinnhubQuote
  | .resp _ d => d.getD emptyFinnhubQuote

/-- Outcome of processing one symbol: the quote placed in `result[raw]`, the
cache write performed (if any), and whether a provider call was issued. -/
structure SymOutcome where
  quote : Quote
  write : Option (String × CacheEntry Quote)
  called : Bool
deriving DecidableEq

/-- The try-block of the per-symbol closure: fetch, build, cache on success;
catch yields the fallback quote and no cache write. -/
def fetchSymbol (fetch : String → FetchResult) (now : Nat) (raw finnhub : String) : SymOutcome :=
  match fetch finnhub with
  | .throw => ⟨fallbackQuote raw, none, true⟩
  | .resp status d =>
    if status ≠ 200 then ⟨fallbackQuote raw, none, true⟩
    else
      let value := buildQuote raw (d.getD emptyFinnhubQuote)
      ⟨value, some (quoteCacheKey finnhub, ⟨now, value⟩), true⟩

/-- One symbol of the `Promise.all` fan-out.  All cache reads use the cache
state and `now` captured before the fan-out. -/
def processSymbol (fetch : String → FetchResult) (cache : Cache Quote) (now : Nat)
    (raw finnhub : String) : SymOutcome :=
  match cache (quoteCacheKey finnhub) with
  | some cached =>
    if now - cached.timestamp < CACHE_TTL_MS then
      ⟨{ cached.value with symbol := raw }, none, false⟩
    else fetchSymbol fetch now raw finnhub
  | none => fetchSymbol fetch now raw finnhub

/-- `symbolsParam.split(',').map(trim . toUpperCase).filter(Boolean)` then
`Array.from(new Set(...))`. -/
def parseSymbols (p : String) : List String :=
  dedup (((jsSplitComma p).map (fun s => jsUpper (jsTrim s))).filter (fun s => s != ""))

inductive QuotesResponse where
  | badRequest (error : String) (invalidSymbols : Option (List String))
  | serverError (error : String)
  | ok (data : List (String × Quote)) (invalidSymbols : Option (List String))
deriving DecidableEq

def QuotesResponse.isBadRequest : QuotesResponse → Bool
  | .badRequest _ _ => true
  | _ => false

def QuotesResponse.dataList : QuotesResponse → List (String × Quote)
  | .ok d _ => d
  | _ => []

/-- The fan-out phase of `/quotes`: the `data` object is modelled as the
association list in request order (keys are distinct after deduplication). -/
def quotesFetchPhase (fetch : String → FetchResult) (cache : Cache Quote) (now : Nat)
    (validSymbols invalidSymbols : List String) : QuotesResponse × Cache Quote × Nat :=
  let outcomes := validSymbols.map
    (fun raw => (raw, processSymbol fetch cache now raw (mapAppliedSymbol raw)))
  (.ok (outcomes.map (fun o => (o.1, o.2.quote)))
       (if invalidSymbols = [] then none else some invalidSymbols),
   applyWrites cache (outcomes.map (fun o => o.2.write)),
   (outcomes.filter (fun o => o.2.called)).length)

/-- The `/quotes` handler.  `hasKey` models whether `FINNHUB_API_KEY` is set;
`symbolsParam = none` models a missing query parameter and `some ""` the empty
one (both falsy in `if (!symbolsParam)`). -/
def quotesHandler (hasKey : Bool) (fetch : String → FetchResult) (cache : Cache Quote)
    (now : Nat) (symbolsParam : Option String) : QuotesResponse × Cache Quote × Nat :=
  match symbolsParam with
  | none => (.badRequest "symbols query param is required" none, cache, 0)
  | some p =>
    if p = "" then (.badRequest "symbols query param is required" none, cache, 0)
    else
      if parseSymbols p = [] then (.badRequest "No symbols provided" none, cache, 0)
      else if 100 < (parseSymbols p).length then
        (.badRequest "Too many symbols. Max allowed is 100." none, cache, 0)
      else if (parseSymbols p).filter isValidSymbol = [] then
        (.badRequest "No valid symbols after validation"
          (some ((parseSymbols p).filter (fun s => !isValidSymbol s))), cache, 0)
      else if hasKey = false then
        (.serverError "FINNHUB_API_KEY is not configured on the server", cache, 0)
      else
        quotesFetchPhase fetch cache now
          ((parseSymbols p).filter isValidSymbol)
          ((parseSymbols p).filter (fun s => !isValidSymbol s))

/-! ## The `/fx` handler -/

/-- The `Realtime Currency Exchange Rate` payload fields the handler reads. -/
structure FxPayload where
  fromCode : JField
  toCode : JField
  exchangeRate : JField
  lastRefreshed : JField
deriving DecidableEq

/-- One Alpha Vantage FX call outcome; `payload = none` models a falsy
`response.data` or a missing `Realtime Currency Exchange Rate` key. -/
inductive FxFetchResult where
  | throw
  | resp (status : Nat) (payload : Option FxPayload)

structure FxRate where
  fromCurrency : JField
  toCurrency : JField
  rate : Rat
  provider : String
  lastUpdated : JField
deriving DecidableEq

inductive FxResponse where
  | badRequest (error : String)
  | ok (r : FxRate)
  | serverError (error : String)
deriving DecidableEq

/-- JavaScript falsiness of a JSON field value (`!payload['5. Exchange Rate']`). -/
def jsFalsy : JField → Bool
  | .num q => decide (q = 0)
  | .str s => s == ""
  | .jbool b => !b
  | .jnull => true
  | .undefined => true

/-- The try-block of `/fx` after a cache miss.  `parseRate` models
`parseFloat` followed by the `Number.isFinite` test: `none` means the parse
produced a non-finite number. -/
def fxFetchPhase (parseRate : JField → Option Rat) (fetchFx : String → String → FxFetchResult)
    (cache : Cache FxRate) (now : Nat) (fromC toC cacheKey : String) :
    FxResponse × Cache FxRate × Nat :=
  match fetchFx fromC toC with
  | .throw => (.serverError "Failed to fetch FX rate", cache, 1)
  | .resp status pl =>
    if status ≠ 200 then (.serverError "Failed to fetch FX rate", cache, 1)
    else
      match pl with
      | none => (.serverError "Failed to fetch FX rate", cache, 1)
      | some payload =>
        if jsFalsy payload.exchangeRate then (.serverError "Failed to fetch FX rate", cache, 1)
        else
          match parseRate payload.exchangeRate with
          | none => (.serverError "Failed to fetch FX rate", cache, 1)
          | some rate =>
            let fxObj : FxRate :=
              ⟨payload.fromCode, payload.toCode, rate, "alphavantage", payload.lastRefreshed⟩
            (.ok fxObj, cacheSet cache cacheKey ⟨now, fxObj⟩, 1)

/-- The `/fx` handler.  `nowIso` models `new Date().toISOString()`. -/
def fxHandler (hasKey : Bool) (parseRate : JField → Option Rat)
    (fetchFx : String → String → FxFetchResult) (cache : Cache FxRate)
    (now : Nat) (nowIso : String) (fromQ toQ : Option String) :
    FxResponse × Cache FxRate × Nat :=
  let fromC := jsTrim (jsUpper (fromQ.getD ""))
  let toC := jsTrim (jsUpper (toQ.getD ""))
  if fromC = "" ∨ toC = "" then
    (.badRequest "from and to query params are required", cache, 0)
  else if fromC = toC then
    (.ok ⟨.str fromC, .str toC, 1, "alphavantage", .str nowIso⟩, cache, 0)
  else if hasKey = false then
    (.serverError "ALPHA_FX_KEY (or ALPHA_VANTAGE_KEY) is not configured on the server", cache, 0)
  else
    match cache ("fx:" ++ fromC ++ "->" ++ toC) with
    | some cached =>
      if now - cached.timestamp < CACHE_TTL_MS then (.ok cached.value, cache, 0)
      else fxFetchPhase parseRate fetchFx cache now fromC toC ("fx:" ++ fromC ++ "->" ++ toC)
    | none => fxFetchPhase parseRate fetchFx cache now fromC toC ("fx:" ++ fromC ++ "->" ++ toC)

/-! ## The `/search` handler -/

/-- Fields of one `bestMatches` entry as read by the handler (`m['1. symbol']`
etc.); `none` models an absent field, covered by `|| ''`. -/
structure RawMatch where
  symbol : Option String
  name : Option String
  region : Option String
  currency : Option String

/-- One Alpha Vantage symbol-search call outcome; `bestMatches = none` models
a falsy `response.data` or a `bestMatches` that is not an array. -/
inductive SearchFetchResult where
  | throw
  | resp (status : Nat) (bestMatches : Option (List RawMatch))

structure SymbolMatch where
  symbol : String
  name : String
  region : String
  currency : String
deriving DecidableEq

structure SearchPayload where
  provider : String
  environment : String
  query : String
  results : List SymbolMatch
deriving DecidableEq

inductive SearchResponse where
  | badRequest (error : String)
  | ok (payload : SearchPayload)
  | serverError (error : String)
  | badGateway (error : String)
deriving DecidableEq

def shapeMatch (m : RawMatch) : SymbolMatch :=
  ⟨jsTrim (m.symbol.getD ""), jsTrim (m.name.getD ""),
   jsTrim (m.region.getD ""), jsTrim (m.currency.getD "")⟩

/-- The try-block of `/search` after a cache miss. -/
def searchFetchPhase (fetchS : String → SearchFetchResult) (cache : Cache SearchPayload)
    (now : Nat) (env query cacheKey : String) : SearchResponse × Cache SearchPayload × Nat :=
  match fetchS query with
  | .throw => (.badGateway "Failed to search symbols via Alpha Vantage", cache, 1)
  | .resp status bm =>
    if status ≠ 200 then (.badGateway "Failed to search symbols via Alpha Vantage", cache, 1)
    else
      let results := ((bm.getD []).map shapeMatch).filter
        (fun r => decide (0 < r.symbol.length) && decide (0 < r.name.length))
      let payload : SearchPayload := ⟨"alphavantage", env, query, results⟩
      (.ok payload, cacheSet cache cacheKey ⟨now, payload⟩, 1)

/-- The `/search` handler.  `env` models `BACKEND_ENV`. -/
def searchHandler (hasKey : Bool) (fetchS : String → SearchFetchResult)
    (cache : Cache SearchPayload) (now : Nat) (env : String)
    (queryParam : Option String) : SearchResponse × Cache SearchPayload × Nat :=
  let query := jsTrim (queryParam.getD "")
  if query = "" then (.badRequest "Missing query parameter", cache, 0)
  else if query.length < 1 ∨ 20 < query.length then
    (.badRequest "Query length must be between 1 and 20 characters", cache, 0)
  else if hasKey = false then
    (.serverError "ALPHA_FX_KEY (or ALPHA_VANTAGE_KEY) is not configured on the server", cache, 0)
  else
    match cache ("search:" ++ jsUpper query) with
    | some cached =>
      if now - cached.timestamp < CACHE_TTL_MS then (.ok cached.value, cache, 0)
      else searchFetchPhase fetchS cache now env query ("search:" ++ jsUpper query)
    | none => searchFetchPhase fetchS cache now env query ("search:" ++ jsUpper query)

/-! ## The `/telemetry` router (routes/telemetry.js) -/

/-- A JavaScript value as delivered by `express.json()`. -/
inductive JSVal where
  | num (q : Rat)
  | str (s : String)
  | jbool (b : Bool)
  | jnull
  | undefined
  | arr (elems : List JSVal)
  | obj (fields : List (String × JSVal))

/-- Property access used by the destructuring in the route. -/
def JSVal.getField : JSVal → String → JSVal
  | .obj fields, k => (((fields.find? (fun p => p.1 == k)).map Prod.snd).getD .undefined)
  | _, _ => .undefined

/-- `typeof v === 'object'` (true for objects, arrays and `null`). -/
def isObjLike : JSVal → Bool
  | .obj _ => true
  | .arr _ => true
  | .jnull => true
  | _ => false

def isNullJ : JSVal → Bool
  | .jnull => true
  | _ => false

def jstrOf : JSVal → String
  | .str s => s
  | _ => ""

def isHexDigit (c : Char) : Bool :=
  c.isDigit || (decide ('a' ≤ c) && decide (c ≤ 'f')) || (decide ('A' ≤ c) && decide (c ≤ 'F'))

/-- The UUID regex of `isUUID`: 8-4-4-4-12 hex digits, case-insensitive. -/
def uuidFormat (s : String) : Bool :=
  decide (s.data.length = 36) &&
  (List.range 36).all (fun i =>
    if i = 8 ∨ i = 13 ∨ i = 18 ∨ i = 23 then s.data.getD i ' ' == '-'
    else isHexDigit (s.data.getD i ' '))

def isUUID : JSVal → Bool
  | .str s => uuidFormat s
  | _ => false

/-- `isISODate` delegates to `Date.parse`, an abstract platform parameter. -/
def isISODate (dateParseOk : String → Bool) : JSVal → Bool
  | .str s => dateParseOk s
  | _ => false

def isSafeStringJ (v : JSVal) (maxLen : Nat) : Bool :=
  match v with
  | .str s => decide (0 < s.length) && decide (s.length ≤ maxLen)
  | _ => false

/-- Character class `[\d\s\-()]` of the phone-number regex. -/
def phoneMidChar (c : Char) : Bool :=
  c.isDigit || jsSpaceChar c || c == '-' || c == '(' || c == ')'

/-- Can the phone regex complete from here, having consumed `seen` middle
characters so far (it needs at least 7 before the closing digit)? -/
def phoneTail : List Char → Nat → Bool
  | [], _ => false
  | c :: rest, seen =>
    (decide (7 ≤ seen) && c.isDigit) || (phoneMidChar c && phoneTail rest (seen + 1))

/-- Does a match of `\+?\d[\d\s\-()]{7,}\d` start exactly here? -/
def phoneStart : List Char → Bool
  | '+' :: rest =>
    match rest with
    | c :: rest2 => c.isDigit && phoneTail rest2 0
    | [] => false
  | c :: rest => c.isDigit && phoneTail rest 0
  | [] => false

def phoneSearch : List Char → Bool
  | [] => false
  | c :: rest => phoneStart (c :: rest) || phoneSearch rest

/-- Direct translation of `containsPIIish` on a string: the email regex `/@/`
and the unanchored phone-number regex. -/
def containsPIIish (s : String) : Bool :=
  s.data.contains '@' || phoneSearch s.data

def containsPIIishJ : JSVal → Bool
  | .str s => containsPIIish s
  | _ => false

def allowedEndpoint : JSVal → Bool
  | .str s => s == "/quotes" || s == "/fx" || s == "/search"
  | _ => false

def allowedErrorType : JSVal → Bool
  | .str s =>
    s == "httpError" || s == "decoding" || s == "network" ||
    s == "timeout" || s == "badURL" || s == "unknown"
  | _ => false

def validHttpStatus : JSVal → Bool
  | .jnull => true
  | .undefined => true
  | .num q => decide (q.den = 1) && decide (100 ≤ q) && decide (q ≤ 599)
  | _ => false

inductive TelemetryResponse where
  | ok (reportId : String) (received : Nat)
  | badRequest (error : String)
  | payloadTooLarge (error : String)
deriving DecidableEq

/-- The per-event validator chain inside the `for` loop; `some code` is the
error code of the 400 response it returns, `none` means the event passes. -/
def validateEvent (dateParseOk : String → Bool) (e : JSVal) : Option String :=
  if !isObjLike e || isNullJ e then some "invalid_event"
  else
    if !isISODate dateParseOk (e.getField "timestamp") then some "invalid_event_timestamp"
    else if !allowedEndpoint (e.getField "endpoint") then some "invalid_event_endpoint"
    else if !validHttpStatus (e.getField "httpStatus") then some "invalid_event_httpStatus"
    else if !allowedErrorType (e.getField "errorType") then some "invalid_event_errorType"
    else if !isUUID (e.getField "requestId") then some "invalid_event_requestId"
    else if containsPIIishJ (e.getField "endpoint") || containsPIIishJ (e.getField "errorType") then
      some "pii_detected"
    else none

def firstEventError (dateParseOk : String → Bool) : List JSVal → Option String
  | [] => none
  | e :: rest =>
    match validateEvent dateParseOk e with
    | some err => some err
    | none => firstEventError dateParseOk rest

/-- The `POST /telemetry` route handler. -/
def telemetryHandler (dateParseOk : String → Bool) (body : JSVal) : TelemetryResponse :=
  if !isObjLike body || isNullJ body then .badRequest "invalid_json"
  else
    if !isUUID (body.getField "reportId") then .badRequest "invalid_reportId"
    else if !isISODate dateParseOk (body.getField "createdAt") then .badRequest "invalid_createdAt"
    else if !isSafeStringJ (body.getField "backendEnvironment") 32 ||
        containsPIIishJ (body.getField "backendEnvironment") then
      .badRequest "invalid_backendEnvironment"
    else if !isSafeStringJ (body.getField "appVersion") 32 ||
        containsPIIishJ (body.getField "appVersion") then
      .badRequest "invalid_appVersion"
    else if !isSafeStringJ (body.getField "iosVersion") 32 ||
        containsPIIishJ (body.getField "iosVersion") then
      .badRequest "invalid_iosVersion"
    else if !isSafeStringJ (body.getField "deviceModel") 64 ||
        containsPIIishJ (body.getField "deviceModel") then
      .badRequest "invalid_deviceModel"
    else
      match body.getField "events" with
      | .arr evs =>
        if 300 < evs.length then .payloadTooLarge "too_many_events"
        else
          match firstEventError dateParseOk evs with
          | some err => .badRequest err
          | none => .ok (jstrOf (body.getField "reportId")) evs.length
      | _ => .badRequest "invalid_events"

/-- Conjunction of the report-level validators of the telemetry route. -/
def reportLevelOk (dateParseOk : String → Bool) (body : JSVal) : Bool :=
  isObjLike body && !isNullJ body &&
  isUUID (body.getField "reportId") &&
  isISODate dateParseOk (body.getField "createdAt") &&
  (isSafeStringJ (body.getField "backendEnvironment") 32 &&
    !containsPIIishJ (body.getField "backendEnvironment")) &&
  (isSafeStringJ (body.getField "appVersion") 32 &&
    !containsPIIishJ (body.getField "appVersion")) &&
  (isSafeStringJ (body.getField "iosVersion") 32 &&
    !containsPIIishJ (body.getField "iosVersion")) &&
  (isSafeStringJ (body.getField "deviceModel") 64 &&
    !containsPIIishJ (body.getField "deviceModel"))

/-! ## Concrete inputs used in counterexamples and witnesses -/

def emptyQuoteCache : Cache Quote := fun _ => none

def cexPayload : FinnhubQuote :=
  ⟨.num 1, .num 2, .num 3, .num 4, .num 5⟩

def cexFetchFail : String → FetchResult := fun _ => .throw

def cexFetchOk : String → FetchResult := fun _ => .resp 200 (some cexPayload)

/-- First `/quotes?symbols=AAPL` request: empty cache, provider throws. -/
def cexRun1 : QuotesResponse × Cache Quote × Nat :=
  quotesHandler true cexFetchFail emptyQuoteCache 0 (some "AAPL")

/-- Second identical request 1 ms later: the failed symbol was not cached. -/
def cexRun2 : QuotesResponse × Cache Quote × Nat :=
  quotesHandler true cexFetchOk cexRun1.2.1 1 (some "AAPL")


def wUUID : String := "123e4567-e89b-12d3-a456-426614174000"

/-- A telemetry report body whose report-level fields all pass validation. -/
def wReportBody (events : JSVal) : JSVal :=
  .obj [("reportId", .str wUUID), ("createdAt", .str "2025-01-01T00:00:00Z"),
        ("backendEnvironment", .str "prod"), ("appVersion", .str "1.0.0"),
        ("iosVersion", .str "17.4"), ("deviceModel", .str "iPhone15,2"),
        ("events", events)]

/-- A telemetry event passing every per-event validator. -/
def wGoodEvent : JSVal :=
  .obj [("timestamp", .str "2025-01-01T00:00:00Z"), ("endpoint", .str "/quotes"),
        ("httpStatus", .num 200), ("errorType", .str "httpError"),
        ("requestId", .str wUUID)]

/-- A telemetry event valid except for an endpoint outside the allowlist. -/
def wBadEndpointEvent : JSVal :=
  .obj [("timestamp", .str "2025-01-01T00:00:00Z"), ("endpoint", .str "/bogus"),
        ("httpStatus", .num 200), ("errorType", .str "httpError"),
        ("requestId", .str wUUID)]

def wSearchMatches : List RawMatch :=
  [⟨some "TSLA", some "Tesla Inc", some "United States", some "USD"⟩]

def wSearchFetch : String → SearchFetchResult :=
  fun _ => .resp 200 (some wSearchMatches)

def wFxPayloadBad : FxPayload :=
  ⟨.str "EUR", .str "USD", .str "garbage", .str "2025-01-01"⟩

def wFxFetchBad : String → String → FxFetchResult :=
  fun _ _ => .resp 200 (some wFxPayloadBad)

/-! ## Helper lemmas -/

theorem mem_dedupAux {a : String} (l : List String) :
    ∀ seen, a ∈ dedupAux l seen ↔ a ∈ l ∧ a ∉ seen := by
  induction l with
  | nil => intro seen; simp [dedupAux]
  | cons x xs ih =>
    intro seen
    by_cases hx : seen.contains x
    · have hxs : x ∈ seen := List.mem_of_elem_eq_true hx
      rw [dedupAux, if_pos hx, ih seen]
      constructor
      · rintro ⟨h1, h2⟩
        exact ⟨List.mem_cons_of_mem _ h1, h2⟩
      · rintro ⟨h1, h2⟩
        rcases List.mem_cons.mp h1 with rfl | h1
        · exact absurd hxs h2
        · exact ⟨h1, h2⟩
    · rw [dedupAux, if_neg hx]
      simp only [List.mem_cons, ih (x :: seen), List.mem_cons]
      constructor
      · rintro (rfl | ⟨h1, h2⟩)
        · exact ⟨Or.inl rfl, fun hs => hx (List.elem_eq_true_of_mem hs)⟩
        · exact ⟨Or.inr h1, fun hs => h2 (Or.inr hs)⟩
      · rintro ⟨rfl | h1, h2⟩
        · exact Or.inl rfl
        · by_cases hax : a = x
          · exact Or.inl hax
          · exact Or.inr ⟨h1, fun hor => hor.elim hax h2⟩

theorem nodup_dedupAux (l : List String) : ∀ seen, (dedupAux l seen).Nodup := by
  induction l with
  | nil => intro seen; simp [dedupAux]
  | cons x xs ih =>
    intro seen
    by_cases hx : seen.contains x
    · rw [dedupAux, if_pos hx]; exact ih seen
    · rw [dedupAux, if_neg hx]
      refine List.nodup_cons.mpr ⟨fun hmem => ?_, ih (x :: seen)⟩
      exact ((mem_dedupAux xs (x :: seen)).mp hmem).2 (List.mem_cons_self x (seen))

theorem nodup_dedup (l : List String) : (dedup l).Nodup :=
  nodup_dedupAux l []

theorem lookupMapSelf {β : Type} {f : String → β} {l : List String} {a : String}
    (h : a ∈ l) : List.lookup a (l.map (fun x => (x, f x))) = some (f a) := by
  induction l with
  | nil => cases h
  | cons x xs ih =>
    by_cases hax : a = x
    · subst hax
      simp [List.lookup_cons]
    · rcases List.mem_cons.mp h with rfl | hmem
      · exact absurd rfl hax
      · simp only [List.map_cons, List.lookup_cons]
        have hbeq : (a == x) = false := beq_eq_false_iff_ne.mpr hax
        rw [hbeq]
        exact ih hmem

theorem processSymbolFetchCongr {f g : String → FetchResult} {c : Cache Quote}
    {now : Nat} {raw k : String} (h : f k = g k) :
    processSymbol f c now raw k = processSymbol g c now raw k := by
  simp only [processSymbol, fetchSymbol, h]

theorem applyWritesMapLookup {keyf : String → String} {entf : String → CacheEntry Quote}
    (l : List String) (c : Cache Quote) (k0 : String) (hk : ∃ raw ∈ l, keyf raw = k0) :
    ∃ raw2 ∈ l, keyf raw2 = k0 ∧
      applyWrites c (l.map (fun raw => some (keyf raw, entf raw))) k0 = some (entf raw2) := by
  induction l using List.reverseRecOn generalizing c with
  | nil => simp at hk
  | append_singleton xs x ih =>
    rw [List.map_append, List.map_cons, List.map_nil, applyWrites, List.foldl_append]
    by_cases hx : k0 = keyf x
    · refine ⟨x, List.mem_append_right _ (List.mem_singleton.mpr rfl), hx.symm, ?_⟩
      simp [applyWrite, cacheSet, if_pos hx]
    · rcases hk with ⟨raw, hraw, hkey⟩
      rcases List.mem_append.mp hraw with hmem | hmem
      · obtain ⟨raw2, h2, hk2, heq⟩ := ih c ⟨raw, hmem, hkey⟩
        refine ⟨raw2, List.mem_append_left _ h2, hk2, ?_⟩
        simpa [applyWrite, cacheSet, if_neg hx, applyWrites] using heq
      · rw [List.mem_singleton.mp hmem] at hkey
        exact absurd hkey.symm hx

theorem fetchSymbolQuoteSymbol (fetch : String → FetchResult) (now : Nat)
    (raw finnhub : String) : (fetchSymbol fetch now raw finnhub).quote.symbol = raw := by
  cases hf : fetch finnhub with
  | throw => simp [fetchSymbol, hf, fallbackQuote]
  | resp st d =>
    by_cases h : st ≠ 200 <;> simp [fetchSymbol, hf, h, fallbackQuote, buildQuote]

theorem processSymbolHit (fetch : String → FetchResult) (c : Cache Quote) (now : Nat)
    (raw finnhub : String) (e : CacheEntry Quote) (hc : c (quoteCacheKey finnhub) = some e)
    (hf : now - e.timestamp < CACHE_TTL_MS) :
    processSymbol fetch c now raw finnhub = ⟨{ e.value with symbol := raw }, none, false⟩ := by
  simp only [processSymbol, hc]
  rw [if_pos hf]

theorem processSymbolMiss (fetch : String → FetchResult) (c : Cache Quote) (now : Nat)
    (raw finnhub : String)
    (hc : ∀ e, c (quoteCacheKey finnhub) = some e → ¬ now - e.timestamp < CACHE_TTL_MS) :
    processSymbol fetch c now raw finnhub = fetchSymbol fetch now raw finnhub := by
  cases hcc : c (quoteCacheKey finnhub) with
  | none => simp only [processSymbol, hcc]
  | some e =>
    simp only [processSymbol, hcc]
    rw [if_neg (hc e hcc)]

theorem quotesHandlerRun (fetch : String → FetchResult) (cache : Cache Quote) (now : Nat)
    (p : String) (h1 : parseSymbols p ≠ []) (h2 : ¬ 100 < (parseSymbols p).length)
    (h3 : (parseSymbols p).filter isValidSymbol ≠ []) :
    quotesHandler true fetch cache now (some p) =
      quotesFetchPhase fetch cache now ((parseSymbols p).filter isValidSymbol)
        ((parseSymbols p).filter (fun s => !isValidSymbol s)) := by
  have hp : p ≠ "" := by
    intro hp
    subst hp
    exact h1 rfl
  simp only [quotesHandler]
  rw [if_neg hp, if_neg h1, if_neg h2, if_neg h3, if_neg (by simp : ¬(true = false))]

theorem jnumToOptEqSome (j : JField) (x : Rat) : jnumToOpt j = some x ↔ j = .num x := by
  cases j <;> simp [jnumToOpt]

/-- C6: every numeric field of a constructed Quote equals the corresponding
provider payload field exactly when that field is a number, and is null
(`none`) otherwise; the provider tag is always "finnhub" and the symbol is the
requested one.  The construction is total, so no exception and no NaN (not
representable in parsed JSON) can reach the response. -/
theorem quote_numeric_coercion (raw : String) (q : FinnhubQuote) :
    (∀ x : Rat, (buildQuote raw q).previousClose = some x ↔ q.pc = .num x) ∧
    (∀ x : Rat, (buildQuote raw q).current = some x ↔ q.c = .num x) ∧
    (∀ x : Rat, (buildQuote raw q).high = some x ↔ q.h = .num x) ∧
    (∀ x : Rat, (buildQuote raw q).low = some x ↔ q.l = .num x) ∧
    (∀ x : Rat, (buildQuote raw q).openP = some x ↔ q.o = .num x) ∧
    (buildQuote raw q).provider = "finnhub" ∧ (buildQuote raw q).symbol = raw := by
  refine ⟨fun x => ?_, fun x => ?_, fun x => ?_, fun x => ?_, fun x => ?_, rfl, rfl⟩ <;>
    exact jnumToOptEqSome _ x

/-- C8: the symbol normalizer, on a nonempty raw symbol, uppercases and trims,
then returns the crypto table entry if one exists; otherwise synthesizes
`BINANCE:<base>USDT` when the symbol is an alphanumeric base of 2 to 10
characters followed by "-USD"; otherwise returns the uppercased trimmed symbol
unchanged.  It is a pure function of its input by construction. -/
theorem mapToFinnhubSymbol_branches (raw : String) (hraw : raw ≠ "") :
    (∀ t, List.lookup (jsUpper (jsTrim raw)) cryptoMap = some t →
      mapToFinnhubSymbol raw = some t) ∧
    (List.lookup (jsUpper (jsTrim raw)) cryptoMap = none →
      (∀ base : List Char, (jsUpper (jsTrim raw)).data = base ++ ['-', 'U', 'S', 'D'] →
        2 ≤ base.length → base.length ≤ 10 → base.all isBaseChar = true →
        mapToFinnhubSymbol raw = some ("BINANCE:" ++ String.mk base ++ "USDT")) ∧
      ((¬ ∃ base : List Char, (jsUpper (jsTrim raw)).data = base ++ ['-', 'U', 'S', 'D'] ∧
          2 ≤ base.length ∧ base.length ≤ 10 ∧ base.all isBaseChar = true) →
        mapToFinnhubSymbol raw = some (jsUpper (jsTrim raw)))) := by
  constructor
  · intro t ht
    simp only [mapToFinnhubSymbol, if_neg hraw, ht]
  · intro hnone
    constructor
    · intro base hb h2 h10 hall
      have hsuf : jsEndsWith (jsUpper (jsTrim raw)) "-USD" = true := by
        rw [jsEndsWith, List.isSuffixOf_iff_suffix, hb]
        exact List.suffix_append _ _
      have hdrop : jsDropRight (jsUpper (jsTrim raw)) 4 = String.mk base := by
        apply String.ext
        show (jsUpper (jsTrim raw)).data.take ((jsUpper (jsTrim raw)).data.length - 4) = base
        rw [hb, List.length_append]
        have h4 : (['-', 'U', 'S', 'D'] : List Char).length = 4 := rfl
        rw [h4, Nat.add_sub_cancel]
        exact List.take_left _ _
      simp only [mapToFinnhubSymbol, if_neg hraw, hnone, hsuf, if_true, hdrop]
      rw [if_pos ⟨h2, h10, hall⟩]
    · intro hno
      by_cases hsuf : jsEndsWith (jsUpper (jsTrim raw)) "-USD" = true
      · obtain ⟨t, ht⟩ := List.isSuffixOf_iff_suffix.mp hsuf
        have hdata : (jsUpper (jsTrim raw)).data = t ++ ['-', 'U', 'S', 'D'] := by
          rw [← ht]
        have hdrop : jsDropRight (jsUpper (jsTrim raw)) 4 = String.mk t := by
          apply String.ext
          show (jsUpper (jsTrim raw)).data.take ((jsUpper (jsTrim raw)).data.length - 4) = t
          rw [hdata, List.length_append]
          have h4 : (['-', 'U', 'S', 'D'] : List Char).length = 4 := rfl
          rw [h4, Nat.add_sub_cancel]
          exact List.take_left _ _
        have hcond : ¬ (2 ≤ (String.mk t).length ∧ (String.mk t).length ≤ 10 ∧
            (String.mk t).data.all isBaseChar = true) := by
          intro hc
          exact hno ⟨t, hdata, hc.1, hc.2.1, hc.2.2⟩
        simp only [mapToFinnhubSymbol, if_neg hraw, hnone, hsuf, if_true, hdrop]
        rw [if_neg hcond]
      · simp only [mapToFinnhubSymbol, if_neg hraw, hnone]
        rw [if_neg hsuf]

theorem mapToFinnhubSymbol_branches_witness :
    mapToFinnhubSymbol "FOO-USD" = some ("BINANCE:" ++ String.mk ['F', 'O', 'O'] ++ "USDT") ∧
    mapToFinnhubSymbol "AAPL" = some (jsUpper (jsTrim "AAPL")) := by
  constructor
  · exact ((mapToFinnhubSymbol_branches "FOO-USD" (by decide)).2 (by decide)).1
      ['F', 'O', 'O'] (by decide) (by decide) (by decide) (by decide)
  · refine ((mapToFinnhubSymbol_branches "AAPL" (by decide)).2 (by decide)).2 ?_
    rintro ⟨base, hb, h2, h10, hall⟩
    have h4 : (jsUpper (jsTrim "AAPL")).data.length = 4 := rfl
    have h5 : (['-', 'U', 'S', 'D'] : List Char).length = 4 := rfl
    have hlen := congrArg List.length hb
    rw [h4, List.length_append, h5] at hlen
    omega

/-- C2: client aliases mapping to the same provider symbol share a cache key
("BTC" and "BTC-USD" both map to "BINANCE:BTCUSDT"; the per-symbol lookup
consults the cache only at `quote:` + mapped symbol), and the quote produced
for an alias always carries that alias in its `symbol` field; on a cache hit
the stored value is cloned with its `symbol` field overwritten by the current
request's original client symbol. -/
theorem quotes_alias_cache_sharing :
    (mapToFinnhubSymbol "BTC" = some "BINANCE:BTCUSDT" ∧
      mapToFinnhubSymbol "BTC-USD" = some "BINANCE:BTCUSDT") ∧
    (∀ (fetch : String → FetchResult) (c1 c2 : Cache Quote) (now : Nat) (raw : String),
      c1 (quoteCacheKey (mapAppliedSymbol raw)) = c2 (quoteCacheKey (mapAppliedSymbol raw)) →
      processSymbol fetch c1 now raw (mapAppliedSymbol raw) =
        processSymbol fetch c2 now raw (mapAppliedSymbol raw)) ∧
    (∀ (fetch : String → FetchResult) (c : Cache Quote) (now : Nat) (raw finnhub : String),
      (processSymbol fetch c now raw finnhub).quote.symbol = raw) ∧
    (∀ (fetch : String → FetchResult) (c : Cache Quote) (now : Nat) (raw finnhub : String)
      (e : CacheEntry Quote), c (quoteCacheKey finnhub) = some e →
      now - e.timestamp < CACHE_TTL_MS →
      processSymbol fetch c now raw finnhub = ⟨{ e.value with symbol := raw }, none, false⟩) := by
  refine ⟨⟨by decide, by decide⟩, ?_, ?_, ?_⟩
  · intro fetch c1 c2 now raw h
    simp only [processSymbol, fetchSymbol, h]
  · intro fetch c now raw finnhub
    cases hcc : c (quoteCacheKey finnhub) with
    | some e =>
      by_cases hf : now - e.timestamp < CACHE_TTL_MS
      · rw [processSymbolHit fetch c now raw finnhub e hcc hf]
      · rw [processSymbolMiss fetch c now raw finnhub
          (fun e2 he2 => by rw [hcc] at he2; injection he2 with h; rw [← h]; exact hf)]
        exact fetchSymbolQuoteSymbol fetch now raw finnhub
    | none =>
      rw [processSymbolMiss fetch c now raw finnhub
        (fun e2 he2 => by rw [hcc] at he2; exact Option.noConfusion he2)]
      exact fetchSymbolQuoteSymbol fetch now raw finnhub
  · intro fetch c now raw finnhub e hc hf
    exact processSymbolHit fetch c now raw finnhub e hc hf

theorem quotes_alias_cache_sharing_witness :
    processSymbol cexFetchFail
      (fun k => if k = "quote:BINANCE:BTCUSDT" then some ⟨0, fallbackQuote "BTC"⟩ else none)
      5 "BTC-USD" (mapAppliedSymbol "BTC-USD")
      = ⟨{ fallbackQuote "BTC" with symbol := "BTC-USD" }, none, false⟩ :=
  quotes_alias_cache_sharing.2.2.2 cexFetchFail _ 5 "BTC-USD" (mapAppliedSymbol "BTC-USD")
    ⟨0, fallbackQuote "BTC"⟩ (by decide) (by decide)

/-- C4: when the trimmed uppercased `from` and `to` currency codes are equal
(and nonempty), `/fx` immediately returns rate 1.0 with a 200 response, makes
no provider call, and neither reads nor writes the cache: the result holds
for every cache state, the cache is returned unchanged, and the call count is
zero. -/
theorem fx_identity_short_circuit (hasKey : Bool) (parseRate : JField → Option Rat)
    (fetchFx : String → String → FxFetchResult) (cache : Cache FxRate)
    (now : Nat) (nowIso : String) (fromQ toQ : Option String)
    (hne : jsTrim (jsUpper (fromQ.getD "")) ≠ "")
    (heq : jsTrim (jsUpper (fromQ.getD "")) = jsTrim (jsUpper (toQ.getD ""))) :
    fxHandler hasKey parseRate fetchFx cache now nowIso fromQ toQ =
      (.ok ⟨.str (jsTrim (jsUpper (fromQ.getD ""))), .str (jsTrim (jsUpper (toQ.getD ""))),
        1, "alphavantage", .str nowIso⟩, cache, 0) := by
  have hto : jsTrim (jsUpper (toQ.getD "")) ≠ "" := heq ▸ hne
  simp only [fxHandler]
  rw [if_neg (not_or.mpr ⟨hne, hto⟩), if_pos heq]

theorem fx_identity_short_circuit_witness :
    fxHandler true (fun _ => none) (fun _ _ => .throw) (fun _ => none) 0 "t0"
      (some "usd") (some " Usd ") =
      (.ok ⟨.str "USD", .str "USD", 1, "alphavantage", .str "t0"⟩, (fun _ => none), 0) :=
  fx_identity_short_circuit true (fun _ => none) (fun _ _ => .throw) (fun _ => none) 0 "t0"
    (some "usd") (some " Usd ") (by decide) (by decide)

/-- C5: `/quotes` responds 400 exactly when the symbols parameter is missing,
or empty after split/trim/blank-removal, or more than 100 distinct symbols
remain after case-insensitive deduplication, or every remaining symbol fails
validation; every 400 leaves the cache untouched and issues no provider call,
and the all-invalid 400 lists the invalid symbols in its body. -/
theorem quotes_validation_400_iff (hasKey : Bool) (fetch : String → FetchResult)
    (cache : Cache Quote) (now : Nat) (symbolsParam : Option String) :
    ((quotesHandler hasKey fetch cache now symbolsParam).1.isBadRequest = true ↔
      symbolsParam = none ∨
      ∃ p, symbolsParam = some p ∧
        (parseSymbols p = [] ∨ 100 < (parseSymbols p).length ∨
          (parseSymbols p).filter isValidSymbol = [])) ∧
    ((quotesHandler hasKey fetch cache now symbolsParam).1.isBadRequest = true →
      (quotesHandler hasKey fetch cache now symbolsParam).2.1 = cache ∧
      (quotesHandler hasKey fetch cache now symbolsParam).2.2 = 0) ∧
    (∀ p, symbolsParam = some p → parseSymbols p ≠ [] → ¬ 100 < (parseSymbols p).length →
      (parseSymbols p).filter isValidSymbol = [] →
      (quotesHandler hasKey fetch cache now symbolsParam).1 =
        .badRequest "No valid symbols after validation"
          (some ((parseSymbols p).filter (fun s => !isValidSymbol s)))) := by
  cases symbolsParam with
  | none =>
    refine ⟨?_, fun _ => ⟨rfl, rfl⟩, fun p hp => Option.noConfusion hp⟩
    simp [quotesHandler, QuotesResponse.isBadRequest]
  | some p =>
    by_cases hp : p = ""
    · subst hp
      refine ⟨?_, fun _ => ⟨rfl, rfl⟩, ?_⟩
      · constructor
        · intro _
          exact Or.inr ⟨"", rfl, Or.inl rfl⟩
        · intro _
          rfl
      · intro p2 hp2 h1 _ _
        injection hp2 with h
        subst h
        exact absurd rfl h1
    · by_cases h1 : parseSymbols p = []
      · have hh : quotesHandler hasKey fetch cache now (some p) =
            (.badRequest "No symbols provided" none, cache, 0) := by
          simp only [quotesHandler]
          rw [if_neg hp, if_pos h1]
        refine ⟨?_, fun _ => by rw [hh]; exact ⟨rfl, rfl⟩, ?_⟩
        · rw [hh]
          exact ⟨fun _ => Or.inr ⟨p, rfl, Or.inl h1⟩, fun _ => rfl⟩
        · intro p2 hp2 h1' _ _
          injection hp2 with h
          subst h
          exact absurd h1 h1'
      · by_cases h2 : 100 < (parseSymbols p).length
        · have hh : quotesHandler hasKey fetch cache now (some p) =
              (.badRequest "Too many symbols. Max allowed is 100." none, cache, 0) := by
            simp only [quotesHandler]
            rw [if_neg hp, if_neg h1, if_pos h2]
          refine ⟨?_, fun _ => by rw [hh]; exact ⟨rfl, rfl⟩, ?_⟩
          · rw [hh]
            exact ⟨fun _ => Or.inr ⟨p, rfl, Or.inr (Or.inl h2)⟩, fun _ => rfl⟩
          · intro p2 hp2 _ h2' _
            injection hp2 with h
            subst h
            exact absurd h2 h2'
        · by_cases h3 : (parseSymbols p).filter isValidSymbol = []
          · have hh : quotesHandler hasKey fetch cache now (some p) =
                (.badRequest "No valid symbols after validation"
                  (some ((parseSymbols p).filter (fun s => !isValidSymbol s))), cache, 0) := by
              simp only [quotesHandler]
              rw [if_neg hp, if_neg h1, if_neg h2, if_pos h3]
            refine ⟨?_, fun _ => by rw [hh]; exact ⟨rfl, rfl⟩, ?_⟩
            · rw [hh]
              exact ⟨fun _ => Or.inr ⟨p, rfl, Or.inr (Or.inr h3)⟩, fun _ => rfl⟩
            · intro p2 hp2 _ _ _
              injection hp2 with h
              subst h
              rw [hh]
          · have hh : (quotesHandler hasKey fetch cache now (some p)).1.isBadRequest = false := by
              simp only [quotesHandler]
              rw [if_neg hp, if_neg h1, if_neg h2, if_neg h3]
              cases hasKey with
              | false => rfl
              | true =>
                rw [if_neg (by simp : ¬(true = false))]
                rfl
            refine ⟨?_, ?_, ?_⟩
            · constructor
              · intro hbad
                rw [hh] at hbad
                exact Bool.noConfusion hbad
              · rintro (hnone | ⟨p2, hp2, hcond⟩)
                · exact Option.noConfusion hnone
                · injection hp2 with h
                  subst h
                  rcases hcond with hc | hc | hc
                  · exact absurd hc h1
                  · exact absurd hc h2
                  · exact absurd hc h3
            · intro hbad
              rw [hh] at hbad
              exact Bool.noConfusion hbad
            · intro p2 hp2 _ _ h3'
              injection hp2 with h
              subst h
              exact absurd h3' h3

theorem quotes_validation_400_iff_witness :
    (quotesHandler true cexFetchFail emptyQuoteCache 0 (some "!!!")).1.isBadRequest = true ∧
    (quotesHandler true cexFetchFail emptyQuoteCache 0 (some "!!!")).2.2 = 0 := by
  have h := quotes_validation_400_iff true cexFetchFail emptyQuoteCache 0 (some "!!!")
  have hbad := h.1.mpr (Or.inr ⟨"!!!", rfl, Or.inr (Or.inr (by decide))⟩)
  exact ⟨hbad, (h.2.1 hbad).2⟩

theorem fxHandlerMiss (parseRate : JField → Option Rat)
    (fetchFx : String → String → FxFetchResult) (cache : Cache FxRate)
    (now : Nat) (nowIso : String) (fromQ toQ : Option String)
    (hfrom : jsTrim (jsUpper (fromQ.getD "")) ≠ "")
    (hto : jsTrim (jsUpper (toQ.getD "")) ≠ "")
    (hne : jsTrim (jsUpper (fromQ.getD "")) ≠ jsTrim (jsUpper (toQ.getD "")))
    (hmiss : ∀ e, cache ("fx:" ++ jsTrim (jsUpper (fromQ.getD "")) ++ "->" ++
        jsTrim (jsUpper (toQ.getD ""))) = some e → ¬ now - e.timestamp < CACHE_TTL_MS) :
    fxHandler true parseRate fetchFx cache now nowIso fromQ toQ =
      fxFetchPhase parseRate fetchFx cache now (jsTrim (jsUpper (fromQ.getD "")))
        (jsTrim (jsUpper (toQ.getD "")))
        ("fx:" ++ jsTrim (jsUpper (fromQ.getD "")) ++ "->" ++ jsTrim (jsUpper (toQ.getD ""))) := by
  simp only [fxHandler]
  rw [if_neg (not_or.mpr ⟨hfrom, hto⟩), if_neg hne, if_neg (by simp : ¬(true = false))]
  cases hc : cache ("fx:" ++ jsTrim (jsUpper (fromQ.getD "")) ++ "->" ++
      jsTrim (jsUpper (toQ.getD ""))) with
  | none => simp only [hc]
  | some e =>
    simp only [hc]
    rw [if_neg (hmiss e hc)]

/-- C7: on a cache miss with distinct currencies, a provider response whose
payload is missing, whose exchange-rate field is falsy, or whose parsed rate
is not finite is surfaced as the upstream-failure error response; no FxRate is
returned and the cache is left unchanged. -/
theorem fx_bad_rate_upstream_failure (parseRate : JField → Option Rat)
    (fetchFx : String → String → FxFetchResult) (cache : Cache FxRate)
    (now : Nat) (nowIso : String) (fromQ toQ : Option String)
    (hfrom : jsTrim (jsUpper (fromQ.getD "")) ≠ "")
    (hto : jsTrim (jsUpper (toQ.getD "")) ≠ "")
    (hne : jsTrim (jsUpper (fromQ.getD "")) ≠ jsTrim (jsUpper (toQ.getD "")))
    (hmiss : ∀ e, cache ("fx:" ++ jsTrim (jsUpper (fromQ.getD "")) ++ "->" ++
        jsTrim (jsUpper (toQ.getD ""))) = some e → ¬ now - e.timestamp < CACHE_TTL_MS)
    (hbad : fetchFx (jsTrim (jsUpper (fromQ.getD ""))) (jsTrim (jsUpper (toQ.getD ""))) =
        .resp 200 none ∨
      ∃ payload, fetchFx (jsTrim (jsUpper (fromQ.getD ""))) (jsTrim (jsUpper (toQ.getD ""))) =
          .resp 200 (some payload) ∧
        (jsFalsy payload.exchangeRate = true ∨ parseRate payload.exchangeRate = none)) :
    fxHandler true parseRate fetchFx cache now nowIso fromQ toQ =
      (.serverError "Failed to fetch FX rate", cache, 1) := by
  rw [fxHandlerMiss parseRate fetchFx cache now nowIso fromQ toQ hfrom hto hne hmiss]
  rcases hbad with hb | ⟨payload, hb, hbad2⟩
  · simp [fxFetchPhase, hb]
  · rcases hbad2 with hf | hpr
    · simp [fxFetchPhase, hb, hf]
    · by_cases hf : jsFalsy payload.exchangeRate
      · simp [fxFetchPhase, hb, hf]
      · simp [fxFetchPhase, hb, hf, hpr]

theorem fx_bad_rate_upstream_failure_witness :
    fxHandler true (fun _ => none) wFxFetchBad (fun _ => none) 0 "t0"
      (some "EUR") (some "USD") =
      (.serverError "Failed to fetch FX rate", (fun _ => none), 1) :=
  fx_bad_rate_upstream_failure (fun _ => none) wFxFetchBad (fun _ => none) 0 "t0"
    (some "EUR") (some "USD") (by decide) (by decide) (by decide)
    (fun e he => Option.noConfusion he)
    (Or.inr ⟨wFxPayloadBad, rfl, Or.inr rfl⟩)

theorem searchHandlerRun (fetchS : String → SearchFetchResult) (cache : Cache SearchPayload)
    (now : Nat) (env : String) (q : String)
    (hq : jsTrim q ≠ "") (hlen : (jsTrim q).length ≤ 20)
    (hmiss : ∀ e, cache ("search:" ++ jsUpper (jsTrim q)) = some e →
      ¬ now - e.timestamp < CACHE_TTL_MS) :
    searchHandler true fetchS cache now env (some q) =
      searchFetchPhase fetchS cache now env (jsTrim q) ("search:" ++ jsUpper (jsTrim q)) := by
  have hpos : ¬ (jsTrim q).length < 1 := by
    intro hlt
    have hcast : (jsTrim q).length = (jsTrim q).data.length := rfl
    rw [hcast] at hlt
    exact hq (String.ext (List.eq_nil_of_length_eq_zero (by omega)))
  simp only [searchHandler, Option.getD_some]
  rw [if_neg hq, if_neg (not_or.mpr ⟨hpos, not_lt.mpr hlen⟩), if_neg (by simp : ¬(true = false))]
  cases hc : cache ("search:" ++ jsUpper (jsTrim q)) with
  | none => simp only [hc]
  | some e =>
    simp only [hc]
    rw [if_neg (hmiss e hc)]

/-- C10: `/search` cache keys are the uppercased trimmed query while the
cached payload stores the query in the populating request's casing, so a
second request within the TTL whose query differs only in case receives the
first caller's payload (query field and results in the first caller's
casing) from the shared entry, with no provider call. -/
theorem search_case_insensitive_cache_sharing (fetchS fetchS2 : String → SearchFetchResult)
    (cache : Cache SearchPayload) (t1 t2 : Nat) (env env2 : String) (q1 q2 : String)
    (h1ne : jsTrim q1 ≠ "") (h1len : (jsTrim q1).length ≤ 20)
    (h2ne : jsTrim q2 ≠ "") (h2len : (jsTrim q2).length ≤ 20)
    (hupper : jsUpper (jsTrim q2) = jsUpper (jsTrim q1))
    (hmiss : ∀ e, cache ("search:" ++ jsUpper (jsTrim q1)) = some e →
      ¬ t1 - e.timestamp < CACHE_TTL_MS)
    (ms : List RawMatch) (hok : fetchS (jsTrim q1) = .resp 200 (some ms))
    (httl : t2 - t1 < CACHE_TTL_MS) :
    ∃ p1 : SearchPayload,
      (searchHandler true fetchS cache t1 env (some q1)).1 = .ok p1 ∧
      p1.query = jsTrim q1 ∧
      searchHandler true fetchS2 ((searchHandler true fetchS cache t1 env (some q1)).2.1)
          t2 env2 (some q2) =
        (.ok p1, (searchHandler true fetchS cache t1 env (some q1)).2.1, 0) := by
  have hrun1 := searchHandlerRun fetchS cache t1 env q1 h1ne h1len hmiss
  have hphase : searchFetchPhase fetchS cache t1 env (jsTrim q1)
      ("search:" ++ jsUpper (jsTrim q1)) =
      (.ok ⟨"alphavantage", env, jsTrim q1,
          ((ms.map shapeMatch).filter
            (fun r => decide (0 < r.symbol.length) && decide (0 < r.name.length)))⟩,
        cacheSet cache ("search:" ++ jsUpper (jsTrim q1))
          ⟨t1, ⟨"alphavantage", env, jsTrim q1,
            ((ms.map shapeMatch).filter
              (fun r => decide (0 < r.symbol.length) && decide (0 < r.name.length)))⟩⟩, 1) := by
    simp only [searchFetchPhase, hok, Option.getD_some]
    rw [if_neg (by simp : ¬(200 ≠ 200))]
  refine ⟨_, by rw [hrun1, hphase], rfl, ?_⟩
  have hc1 : (searchHandler true fetchS cache t1 env (some q1)).2.1 =
      cacheSet cache ("search:" ++ jsUpper (jsTrim q1))
        ⟨t1, ⟨"alphavantage", env, jsTrim q1,
          ((ms.map shapeMatch).filter
            (fun r => decide (0 < r.symbol.length) && decide (0 < r.name.length)))⟩⟩ := by
    rw [hrun1, hphase]
  have hpos2 : ¬ (jsTrim q2).length < 1 := by
    intro hlt
    have hcast : (jsTrim q2).length = (jsTrim q2).data.length := rfl
    rw [hcast] at hlt
    exact h2ne (String.ext (List.eq_nil_of_length_eq_zero (by omega)))
  have hckey : cacheSet cache ("search:" ++ jsUpper (jsTrim q1))
        ⟨t1, ⟨"alphavantage", env, jsTrim q1,
          ((ms.map shapeMatch).filter
            (fun r => decide (0 < r.symbol.length) && decide (0 < r.name.length)))⟩⟩
      ("search:" ++ jsUpper (jsTrim q2)) =
      some ⟨t1, ⟨"alphavantage", env, jsTrim q1,
        ((ms.map shapeMatch).filter
          (fun r => decide (0 < r.symbol.length) && decide (0 < r.name.length)))⟩⟩ := by
    rw [hupper]
    simp [cacheSet]
  rw [hc1]
  simp only [searchHandler, Option.getD_some]
  rw [if_neg h2ne, if_neg (not_or.mpr ⟨hpos2, not_lt.mpr h2len⟩),
    if_neg (by simp : ¬(true = false))]
  simp only [hckey]
  rw [if_pos httl]

theorem search_case_insensitive_cache_sharing_witness :
    ∃ p1 : SearchPayload,
      (searchHandler true wSearchFetch (fun _ => none) 0 "development" (some "tsla")).1 =
        .ok p1 ∧
      p1.query = "tsla" ∧
      searchHandler true (fun _ => .throw)
          ((searchHandler true wSearchFetch (fun _ => none) 0 "development" (some "tsla")).2.1)
          10 "development2" (some "TsLa") =
        (.ok p1,
          (searchHandler true wSearchFetch (fun _ => none) 0 "development" (some "tsla")).2.1,
          0) :=
  search_case_insensitive_cache_sharing wSearchFetch (fun _ => .throw) (fun _ => none) 0 10
    "development" "development2" "tsla" "TsLa" (by decide) (by decide) (by decide) (by decide)
    (by decide) (fun e he => Option.noConfusion he) wSearchMatches rfl (by decide)

theorem quoteCacheKeyInj {a b : String} (h : quoteCacheKey a = quoteCacheKey b) : a = b := by
  have hd := congrArg String.data h
  rw [quoteCacheKey, quoteCacheKey, String.data_append, String.data_append] at hd
  exact String.ext (List.append_cancel_left hd)

theorem quotesDataListEq (fetch : String → FetchResult) (cache : Cache Quote) (now : Nat)
    (p : String) (h1 : parseSymbols p ≠ []) (h2 : ¬ 100 < (parseSymbols p).length)
    (h3 : (parseSymbols p).filter isValidSymbol ≠ []) :
    (quotesHandler true fetch cache now (some p)).1.dataList =
      ((parseSymbols p).filter isValidSymbol).map
        (fun raw => (raw, (processSymbol fetch cache now raw (mapAppliedSymbol raw)).quote)) := by
  rw [quotesHandlerRun fetch cache now p h1 h2 h3]
  simp only [quotesFetchPhase, QuotesResponse.dataList, List.map_map]
  rfl

/-- C1: for a request whose parsed list is nonempty, at most 100 long and
contains at least one valid symbol, the 200 response's data object has
exactly one entry per distinct valid symbol (the key list is the deduplicated
valid-symbol list, which has no duplicates); a symbol meeting a cache miss
whose provider call throws or returns non-200 gets the all-null fallback
Quote with provider "finnhub"; and changing the provider's behaviour at one
mapped symbol leaves the entries of symbols mapped elsewhere unchanged. -/
theorem quotes_batch_isolation (fetch : String → FetchResult) (cache : Cache Quote)
    (now : Nat) (p : String)
    (h1 : parseSymbols p ≠ []) (h2 : ¬ 100 < (parseSymbols p).length)
    (h3 : (parseSymbols p).filter isValidSymbol ≠ []) :
    ((quotesHandler true fetch cache now (some p)).1.dataList.map Prod.fst =
      (parseSymbols p).filter isValidSymbol) ∧
    ((parseSymbols p).filter isValidSymbol).Nodup ∧
    (∃ inv, (quotesHandler true fetch cache now (some p)).1 =
      .ok ((quotesHandler true fetch cache now (some p)).1.dataList) inv) ∧
    (∀ raw ∈ (parseSymbols p).filter isValidSymbol,
      (∀ e, cache (quoteCacheKey (mapAppliedSymbol raw)) = some e →
        ¬ now - e.timestamp < CACHE_TTL_MS) →
      (fetch (mapAppliedSymbol raw) = .throw ∨
        ∃ st d, fetch (mapAppliedSymbol raw) = .resp st d ∧ st ≠ 200) →
      List.lookup raw ((quotesHandler true fetch cache now (some p)).1.dataList) =
        some (fallbackQuote raw)) ∧
    (∀ (fetch2 : String → FetchResult) (badKey : String),
      (∀ s, s ≠ badKey → fetch s = fetch2 s) →
      ∀ raw ∈ (parseSymbols p).filter isValidSymbol, mapAppliedSymbol raw ≠ badKey →
      List.lookup raw ((quotesHandler true fetch2 cache now (some p)).1.dataList) =
        List.lookup raw ((quotesHandler true fetch cache now (some p)).1.dataList)) := by
  have hdata := quotesDataListEq fetch cache now p h1 h2 h3
  refine ⟨?_, ?_, ?_, ?_, ?_⟩
  · rw [hdata, List.map_map]
    exact List.map_id _
  · exact List.Nodup.filter _ (nodup_dedup _)
  · refine ⟨if (parseSymbols p).filter (fun s => !isValidSymbol s) = [] then none
      else some ((parseSymbols p).filter (fun s => !isValidSymbol s)), ?_⟩
    rw [quotesHandlerRun fetch cache now p h1 h2 h3]
    rfl
  · intro raw hraw hm hfail
    rw [hdata, lookupMapSelf hraw, processSymbolMiss fetch cache now raw _ hm]
    rcases hfail with hf | ⟨st, d, hf, hst⟩
    · simp [fetchSymbol, hf]
    · simp [fetchSymbol, hf, hst]
  · intro fetch2 badKey hagree raw hraw hk
    have hdata2 := quotesDataListEq fetch2 cache now p h1 h2 h3
    rw [hdata, hdata2, lookupMapSelf hraw, lookupMapSelf hraw,
      processSymbolFetchCongr (hagree _ hk)]

theorem quotes_batch_isolation_witness :
    List.lookup "AAPL"
        ((quotesHandler true cexFetchFail emptyQuoteCache 0 (some "AAPL,MSFT")).1.dataList) =
      some (fallbackQuote "AAPL") ∧
    ((quotesHandler true cexFetchFail emptyQuoteCache 0 (some "AAPL,MSFT")).1.dataList.map
        Prod.fst = (parseSymbols "AAPL,MSFT").filter isValidSymbol) := by
  have h := quotes_batch_isolation cexFetchFail emptyQuoteCache 0 "AAPL,MSFT"
    (by decide) (by decide) (by decide)
  exact ⟨h.2.2.2.1 "AAPL" (by decide)
    (fun e he => Option.noConfusion he) (Or.inl rfl), h.1⟩

/-- C3 (counterexample to the claim as stated): with an initially empty cache,
a first `/quotes?symbols=AAPL` request at t=0 whose provider call throws still
succeeds with a 200 response, but caches nothing; the identical request 1 ms
later (well within the TTL) issues one provider call, not zero, and returns
different data values. -/
theorem quotes_ttl_counterexample :
    (∃ d i, cexRun1.1 = QuotesResponse.ok d i) ∧
    cexRun2.2.2 ≠ 0 ∧
    cexRun2.1.dataList ≠ cexRun1.1.dataList := by
  refine ⟨⟨[("AAPL", fallbackQuote "AAPL")], none, by decide⟩, by decide, by decide⟩

theorem quotesFetchPhaseCongr (f g : String → FetchResult) (c1 c2 : Cache Quote)
    (t t' : Nat) (valid invalid : List String)
    (h : ∀ raw ∈ valid, (processSymbol f c1 t raw (mapAppliedSymbol raw)).quote =
      (processSymbol g c2 t' raw (mapAppliedSymbol raw)).quote) :
    (quotesFetchPhase f c1 t valid invalid).1 = (quotesFetchPhase g c2 t' valid invalid).1 := by
  simp only [quotesFetchPhase, List.map_map]
  congr 1
  apply List.map_congr_left
  intro raw hraw
  show (raw, (processSymbol f c1 t raw (mapAppliedSymbol raw)).quote) =
    (raw, (processSymbol g c2 t' raw (mapAppliedSymbol raw)).quote)
  rw [h raw hraw]

theorem quotesFetchPhaseCallsZero (g : String → FetchResult) (c2 : Cache Quote)
    (t' : Nat) (valid invalid : List String)
    (h : ∀ raw ∈ valid, (processSymbol g c2 t' raw (mapAppliedSymbol raw)).called = false) :
    (quotesFetchPhase g c2 t' valid invalid).2.2 = 0 := by
  have hfil : (valid.map
      (fun raw => (raw, processSymbol g c2 t' raw (mapAppliedSymbol raw)))).filter
      (fun o => o.2.called) = [] := by
    rw [List.filter_eq_nil_iff]
    intro o ho
    obtain ⟨raw, hraw, rfl⟩ := List.mem_map.mp ho
    simp [h raw hraw]
  simp only [quotesFetchPhase]
  rw [hfil]
  rfl

/-- C3 (amended): if in the first request every per-symbol lookup misses the
cache and its provider call succeeds with HTTP 200, then the identical
request arriving within the TTL returns the identical response (in
particular identical data values) and issues zero provider calls, whatever
the provider would now answer. -/
theorem quotes_repeat_within_ttl (fetch fetch2 : String → FetchResult) (cache : Cache Quote)
    (t1 t2 : Nat) (p : String)
    (h1 : parseSymbols p ≠ []) (h2 : ¬ 100 < (parseSymbols p).length)
    (h3 : (parseSymbols p).filter isValidSymbol ≠ [])
    (hmiss : ∀ raw ∈ (parseSymbols p).filter isValidSymbol,
      ∀ e, cache (quoteCacheKey (mapAppliedSymbol raw)) = some e →
        ¬ t1 - e.timestamp < CACHE_TTL_MS)
    (hsucc : ∀ raw ∈ (parseSymbols p).filter isValidSymbol,
      ∃ d, fetch (mapAppliedSymbol raw) = .resp 200 d)
    (httl : t2 - t1 < CACHE_TTL_MS) :
    (∃ data inv, (quotesHandler true fetch cache t1 (some p)).1 =
      QuotesResponse.ok data inv) ∧
    (quotesHandler true fetch2 ((quotesHandler true fetch cache t1 (some p)).2.1)
        t2 (some p)).1 = (quotesHandler true fetch cache t1 (some p)).1 ∧
    (quotesHandler true fetch2 ((quotesHandler true fetch cache t1 (some p)).2.1)
        t2 (some p)).2.2 = 0 := by
  have hrun1 := quotesHandlerRun fetch cache t1 p h1 h2 h3
  have hout : ∀ raw ∈ (parseSymbols p).filter isValidSymbol,
      processSymbol fetch cache t1 raw (mapAppliedSymbol raw) =
      ⟨buildQuote raw (fetchedData (fetch (mapAppliedSymbol raw))),
        some (quoteCacheKey (mapAppliedSymbol raw),
          ⟨t1, buildQuote raw (fetchedData (fetch (mapAppliedSymbol raw)))⟩),
        true⟩ := by
    intro raw hraw
    obtain ⟨d, hd⟩ := hsucc raw hraw
    rw [processSymbolMiss fetch cache t1 raw _ (hmiss raw hraw)]
    simp [fetchSymbol, hd, fetchedData]
  have hcW : (quotesFetchPhase fetch cache t1 ((parseSymbols p).filter isValidSymbol)
        ((parseSymbols p).filter (fun s => !isValidSymbol s))).2.1 =
      applyWrites cache (((parseSymbols p).filter isValidSymbol).map
        (fun raw => some (quoteCacheKey (mapAppliedSymbol raw),
          ⟨t1, buildQuote raw (fetchedData (fetch (mapAppliedSymbol raw)))⟩))) := by
    simp only [quotesFetchPhase, List.map_map]
    refine congrArg (applyWrites cache) ?_
    apply List.map_congr_left
    intro raw hraw
    show (processSymbol fetch cache t1 raw (mapAppliedSymbol raw)).write =
      some (quoteCacheKey (mapAppliedSymbol raw),
        ⟨t1, buildQuote raw (fetchedData (fetch (mapAppliedSymbol raw)))⟩)
    rw [hout raw hraw]
  have hout2 : ∀ raw ∈ (parseSymbols p).filter isValidSymbol,
      processSymbol fetch2 ((quotesFetchPhase fetch cache t1
          ((parseSymbols p).filter isValidSymbol)
          ((parseSymbols p).filter (fun s => !isValidSymbol s))).2.1)
        t2 raw (mapAppliedSymbol raw) =
      ⟨buildQuote raw (fetchedData (fetch (mapAppliedSymbol raw))), none, false⟩ := by
    intro raw hraw
    obtain ⟨raw2, hr2, hkey2, heq⟩ := @applyWritesMapLookup
      (fun r => quoteCacheKey (mapAppliedSymbol r))
      (fun r => ⟨t1, buildQuote r (fetchedData (fetch (mapAppliedSymbol r)))⟩)
      ((parseSymbols p).filter isValidSymbol) cache
      (quoteCacheKey (mapAppliedSymbol raw)) ⟨raw, hraw, rfl⟩
    have hmap2 : mapAppliedSymbol raw2 = mapAppliedSymbol raw := quoteCacheKeyInj hkey2
    have hcval : ((quotesFetchPhase fetch cache t1 ((parseSymbols p).filter isValidSymbol)
          ((parseSymbols p).filter (fun s => !isValidSymbol s))).2.1)
        (quoteCacheKey (mapAppliedSymbol raw)) =
        some ⟨t1, buildQuote raw2 (fetchedData (fetch (mapAppliedSymbol raw2)))⟩ := by
      rw [hcW]
      exact heq
    rw [processSymbolHit fetch2 _ t2 raw (mapAppliedSymbol raw) _ hcval httl, hmap2]
    simp [buildQuote]
  have hC : (quotesHandler true fetch cache t1 (some p)).2.1 =
      (quotesFetchPhase fetch cache t1 ((parseSymbols p).filter isValidSymbol)
        ((parseSymbols p).filter (fun s => !isValidSymbol s))).2.1 := by
    rw [hrun1]
  have hrun2 := quotesHandlerRun fetch2
    ((quotesFetchPhase fetch cache t1 ((parseSymbols p).filter isValidSymbol)
      ((parseSymbols p).filter (fun s => !isValidSymbol s))).2.1) t2 p h1 h2 h3
  refine ⟨?_, ?_, ?_⟩
  · refine ⟨(((parseSymbols p).filter isValidSymbol).map
        (fun raw => (raw, processSymbol fetch cache t1 raw (mapAppliedSymbol raw)))).map
        (fun o => (o.1, o.2.quote)),
      if (parseSymbols p).filter (fun s => !isValidSymbol s) = [] then none
      else some ((parseSymbols p).filter (fun s => !isValidSymbol s)), ?_⟩
    rw [hrun1]
    rfl
  · rw [hC, hrun2, hrun1]
    exact quotesFetchPhaseCongr fetch2 fetch _ cache t2 t1 _ _
      (fun raw hraw => by rw [hout2 raw hraw, hout raw hraw])
  · rw [hC, hrun2]
    exact quotesFetchPhaseCallsZero fetch2 _ t2 _ _
      (fun raw hraw => by rw [hout2 raw hraw])

theorem quotes_repeat_within_ttl_witness :
    (∃ data inv, (quotesHandler true cexFetchOk emptyQuoteCache 0 (some "AAPL")).1 =
      QuotesResponse.ok data inv) ∧
    (quotesHandler true cexFetchFail
        ((quotesHandler true cexFetchOk emptyQuoteCache 0 (some "AAPL")).2.1)
        10 (some "AAPL")).1 =
      (quotesHandler true cexFetchOk emptyQuoteCache 0 (some "AAPL")).1 ∧
    (quotesHandler true cexFetchFail
        ((quotesHandler true cexFetchOk emptyQuoteCache 0 (some "AAPL")).2.1)
        10 (some "AAPL")).2.2 = 0 :=
  quotes_repeat_within_ttl cexFetchOk cexFetchFail emptyQuoteCache 0 10 "AAPL"
    (by decide) (by decide) (by decide)
    (fun raw _ e he => Option.noConfusion he)
    (fun raw _ => ⟨some cexPayload, rfl⟩)
    (by decide)

theorem validateEventNoneEndpoint (dp : String → Bool) (e : JSVal)
    (h : validateEvent dp e = none) : allowedEndpoint (e.getField "endpoint") = true := by
  simp only [validateEvent] at h
  split_ifs at h
  all_goals simp_all

theorem validateEventBadEndpoint (dp : String → Bool) (e : JSVal)
    (hobj : isObjLike e = true) (hnn : isNullJ e = false)
    (hts : isISODate dp (e.getField "timestamp") = true)
    (hep : allowedEndpoint (e.getField "endpoint") = false) :
    validateEvent dp e = some "invalid_event_endpoint" := by
  simp [validateEvent, hobj, hnn, hts, hep]

theorem firstEventErrorNone (dp : String → Bool) (evs : List JSVal)
    (h : ∀ e ∈ evs, validateEvent dp e = none) : firstEventError dp evs = none := by
  induction evs with
  | nil => rfl
  | cons e rest ih =>
    simp only [firstEventError, h e (List.mem_cons_self e rest)]
    exact ih (fun e2 he2 => h e2 (List.mem_cons_of_mem _ he2))

theorem firstEventErrorEndpoint (dp : String → Bool) (evs : List JSVal)
    (hall : ∀ e ∈ evs, validateEvent dp e = none ∨
      (isObjLike e = true ∧ isNullJ e = false ∧
        isISODate dp (e.getField "timestamp") = true ∧
        allowedEndpoint (e.getField "endpoint") = false))
    (hex : ∃ e ∈ evs, allowedEndpoint (e.getField "endpoint") = false) :
    firstEventError dp evs = some "invalid_event_endpoint" := by
  induction evs with
  | nil =>
    obtain ⟨e, he, _⟩ := hex
    cases he
  | cons e rest ih =>
    rcases hall e (List.mem_cons_self e rest) with hnone | ⟨ho, hn, ht, hepf⟩
    · have hepT := validateEventNoneEndpoint dp e hnone
      simp only [firstEventError, hnone]
      apply ih (fun e2 he2 => hall e2 (List.mem_cons_of_mem _ he2))
      obtain ⟨e2, he2, hbad⟩ := hex
      rcases List.mem_cons.mp he2 with rfl | hmem
      · rw [hepT] at hbad
        exact Bool.noConfusion hbad
      · exact ⟨e2, hmem, hbad⟩
    · simp only [firstEventError, validateEventBadEndpoint dp e ho hn ht hepf]

theorem telemetryHandlerEvents (dp : String → Bool) (body : JSVal)
    (hok : reportLevelOk dp body = true) :
    telemetryHandler dp body =
      (match body.getField "events" with
       | .arr evs =>
         if 300 < evs.length then .payloadTooLarge "too_many_events"
         else
           match firstEventError dp evs with
           | some err => .badRequest err
           | none => .ok (jstrOf (body.getField "reportId")) evs.length
       | _ => .badRequest "invalid_events") := by
  simp only [reportLevelOk, Bool.and_eq_true, Bool.not_eq_true'] at hok
  obtain ⟨⟨⟨⟨⟨⟨⟨hobj, hnn⟩, hrid⟩, hcr⟩, hbe1, hbe2⟩, hav1, hav2⟩, hio1, hio2⟩, hdm1, hdm2⟩ := hok
  simp [telemetryHandler, hobj, hnn, hrid, hcr, hbe1, hbe2, hav1, hav2, hio1, hio2, hdm1, hdm2]

/-- C9: an otherwise valid telemetry body with more than 300 events yields 413
`too_many_events`; a non-UUID reportId yields 400 `invalid_reportId`; an
otherwise valid body in which some event's endpoint is outside the allowlist
yields 400 `invalid_event_endpoint`; and a body passing every validator
yields 200 with ok, the reportId, and received equal to the event count. -/
theorem telemetry_validation (dp : String → Bool) (body : JSVal) :
    (isObjLike body = true → isNullJ body = false →
      isUUID (body.getField "reportId") = false →
      telemetryHandler dp body = .badRequest "invalid_reportId") ∧
    (∀ evs, reportLevelOk dp body = true → body.getField "events" = .arr evs →
      300 < evs.length → telemetryHandler dp body = .payloadTooLarge "too_many_events") ∧
    (∀ evs, reportLevelOk dp body = true → body.getField "events" = .arr evs →
      evs.length ≤ 300 →
      (∀ e ∈ evs, validateEvent dp e = none ∨
        (isObjLike e = true ∧ isNullJ e = false ∧
          isISODate dp (e.getField "timestamp") = true ∧
          allowedEndpoint (e.getField "endpoint") = false)) →
      (∃ e ∈ evs, allowedEndpoint (e.getField "endpoint") = false) →
      telemetryHandler dp body = .badRequest "invalid_event_endpoint") ∧
    (∀ evs, reportLevelOk dp body = true → body.getField "events" = .arr evs →
      evs.length ≤ 300 → (∀ e ∈ evs, validateEvent dp e = none) →
      telemetryHandler dp body = .ok (jstrOf (body.getField "reportId")) evs.length) := by
  refine ⟨?_, ?_, ?_, ?_⟩
  · intro hobj hnn hrid
    simp [telemetryHandler, hobj, hnn, hrid]
  · intro evs hok hev hlen
    rw [telemetryHandlerEvents dp body hok]
    simp only [hev]
    rw [if_pos hlen]
  · intro evs hok hev hlen hall hex
    rw [telemetryHandlerEvents dp body hok]
    simp only [hev]
    rw [if_neg (not_lt.mpr hlen)]
    simp only [firstEventErrorEndpoint dp evs hall hex]
  · intro evs hok hev hlen hall
    rw [telemetryHandlerEvents dp body hok]
    simp only [hev]
    rw [if_neg (not_lt.mpr hlen)]
    simp only [firstEventErrorNone dp evs hall]

theorem telemetry_validation_witness :
    telemetryHandler (fun _ => true) (wReportBody (.arr (List.replicate 301 JSVal.jnull))) =
      .payloadTooLarge "too_many_events" ∧
    telemetryHandler (fun _ => true) (JSVal.obj [("reportId", .str "nope")]) =
      .badRequest "invalid_reportId" ∧
    telemetryHandler (fun _ => true) (wReportBody (.arr [wGoodEvent, wBadEndpointEvent])) =
      .badRequest "invalid_event_endpoint" ∧
    telemetryHandler (fun _ => true) (wReportBody (.arr [wGoodEvent])) = .ok wUUID 1 := by
  have h1 := telemetry_validation (fun _ => true)
    (wReportBody (.arr (List.replicate 301 JSVal.jnull)))
  have h2 := telemetry_validation (fun _ => true) (JSVal.obj [("reportId", .str "nope")])
  have h3 := telemetry_validation (fun _ => true)
    (wReportBody (.arr [wGoodEvent, wBadEndpointEvent]))
  have h4 := telemetry_validation (fun _ => true) (wReportBody (.arr [wGoodEvent]))
  refine ⟨h1.2.1 _ (by decide) rfl (by rw [List.length_replicate]; norm_num),
    h2.1 (by decide) (by decide) (by decide),
    h3.2.2.1 _ (by decide) rfl (by decide) (by decide) (by decide),
    h4.2.2.2 _ (by decide) rfl (by decide) (by decide)⟩
